import Mathlib

/-!
Verification of the `socos` music-library core (`src/socos.py`) against its
natural-language specification.

The development shallowly embeds the `MusicLibrary` class: the query cache
(an ordered association list mirroring the `OrderedDict` in
`MusicLibrary.__init__` / `MusicLibrary._search`), the search parsing and
execution (`MusicLibrary._search`), the queue mutation
(`MusicLibrary._play`), the dispatcher (`MusicLibrary._search_and_play`)
and the indexer (`MusicLibrary.index` / `MusicLibrary._index_single_type`).
Stateful sqlite and device interaction is modelled by explicit state
passing; the remote device is a parameter recording what was requested.
-/

/-! ## The query cache (`MusicLibrary.__init__`, `MusicLibrary._search`)

`self.cached_searches = OrderedDict()` keyed by
`(data_type, field, search)`; `self.cache_length = 10`.  We model the
`OrderedDict` as a list of key/value pairs in insertion order (oldest
first), exactly the order `popitem(last=False)` pops from. -/

/-- Cache key: `(data_type, field, search)` as in `MusicLibrary._search`. -/
abbrev Key : Type := String × String × String

/-- One result row from the sqlite store: the list of column values, the
serialized content blob last (`SELECT *` order). -/
abbrev Row : Type := List String

/-- The `cached_searches` ordered dictionary, oldest entry first. -/
abbrev Cache : Type := List (Key × List Row)

/-- `self.cache_length = 10` in `MusicLibrary.__init__`. -/
def cacheLength : Nat := 10

/-- Python `self.cached_searches[key] = value`: if the key is present the
value is updated in place (an `OrderedDict` keeps the original position),
otherwise the pair is appended at the (newest) end. -/
def cacheUpdate (c : Cache) (k : Key) (v : List Row) : Cache :=
  if c.any (fun p => p.1 = k) then
    c.map (fun p => if p.1 = k then (k, v) else p)
  else
    c ++ [(k, v)]

/-- `while len(self.cached_searches) > self.cache_length:
self.cached_searches.popitem(last=False)`: pop the oldest entry until the
length is within the bound `n`. -/
def cacheTrim (n : Nat) : Cache → Cache
  | [] => []
  | p :: rest => if (p :: rest).length ≤ n then p :: rest else cacheTrim n rest

/-- Insertion into the cache as performed on a search miss in
`MusicLibrary._search`: assign, then trim to `cacheLength`. -/
def cachePut (c : Cache) (k : Key) (v : List Row) : Cache :=
  cacheTrim cacheLength (cacheUpdate c k v)

/-- Reading the cache (`key in self.cached_searches` /
`self.cached_searches[key]`).  A read does not reorder the dictionary. -/
def cacheGet (c : Cache) (k : Key) : Option (List Row) :=
  (c.find? (fun p => p.1 = k)).map Prod.snd

/-! ## Table schema (`MusicLibrary.index` create statements)

`_get_columns` introspects the live schema with `PRAGMA table_info`; after
indexing, the columns are exactly those of the four `CREATE TABLE`
statements in `MusicLibrary.index`. -/

/-- `self.data_types` from `MusicLibrary.__init__` (also the drop order and
the indexing order in `MusicLibrary.index`). -/
def dataTypes : List String := ["playlists", "artists", "albums", "tracks"]

/-- The order in which `MusicLibrary.index` executes its `CREATE TABLE`
statements. -/
def createOrder : List String := ["tracks", "albums", "artists", "playlists"]

/-- Column lists of the four tables, as created by `MusicLibrary.index` and
reported by `MusicLibrary._get_columns` on an indexed store. -/
def getColumns (table : String) : List String :=
  if table = "tracks" then ["title", "album", "artist", "content"]
  else if table = "albums" then ["title", "artist", "content"]
  else if table = "artists" then ["title", "content"]
  else if table = "playlists" then ["title", "content"]
  else []

/-! ## Search (`MusicLibrary._search`) -/

/-- The sqlite backend of a search: `SELECT * FROM {data_type} WHERE
{field} LIKE ?`, as a function from `(data_type, field, pattern)` to the
fetched rows. -/
abbrev Store : Type := String → String → String → List Row

/-- `search_string.count('=')`. -/
def countEq (s : String) : Nat :=
  (s.toList.filter (fun c => c = '=')).length

/-- Python `str.split(sep)` for a single-character separator, on the
character list. -/
def splitOnChar (sep : Char) : List Char → List (List Char)
  | [] => [[]]
  | c :: rest =>
    let r := splitOnChar sep rest
    if c = sep then [] :: r else (c :: r.headD []) :: r.tail

/-- Python list `repr` of a list of strings, used in the unknown-field
error message (`'{}'.format(self._get_columns(data_type)[:-1])`). -/
def pyStrList (l : List String) : String :=
  "[" ++ String.intercalate ", " (l.map (fun s => "\x27" ++ s ++ "\x27")) ++ "]"

/-- The execution part of `MusicLibrary._search` (source lines 271-291):
wrap the search text in `%` wildcards, serve from the cache when the key is
present, otherwise validate the field, query the store, and populate the
cache.  Returns the outcome (`TypeError` messages as `.error`), the cache
after the call, and the number of store queries issued by the call. -/
def searchExec (cache : Cache) (store : Store) (dataType field text : String) :
    Except String (List Row) × Cache × Nat :=
  let pattern := "%" ++ text ++ "%"
  let key : Key := (dataType, field, pattern)
  match cacheGet cache key with
  | some results => (.ok results, cache, 0)
  | none =>
    if (getColumns dataType).dropLast.contains field then
      let results := store dataType field pattern
      (.ok results, cachePut cache key results, 1)
    else
      (.error ("The search field \x27" ++ field ++ "\x27 is unknown. Only "
        ++ pyStrList (getColumns dataType).dropLast ++ " is allowed"), cache, 0)

/-- `MusicLibrary._search`: parse the raw query token on its `=` count,
then execute.  `search_string = args[0]`. -/
def mlSearch (cache : Cache) (store : Store) (dataType searchString : String) :
    Except String (List Row) × Cache × Nat :=
  let eqCount := countEq searchString
  if eqCount = 0 then
    searchExec cache store dataType "title" searchString
  else if eqCount = 1 then
    let parts := splitOnChar '=' searchString.toList
    searchExec cache store dataType (String.mk (parts.headD []))
      (String.mk ((parts.drop 1).headD []))
  else
    (.error "= signs are not allowed in the search string", cache, 0)

/-! ## Queue mutation (`MusicLibrary._play`) -/

/-- The full deserialized music-library item; only the display title is
inspected by `_play`. -/
structure Item where
  title : String
deriving DecidableEq, Repr

/-- A call received by the playback controller (the `sonos` object). -/
inductive PCall where
  | clearQueue
  | appendToQueue (item : Item)
  | beginPlayback
deriving DecidableEq, Repr

/-- Digit-sequence parser backing `pyInt`. -/
def parseDigits (l : List Char) : Option Nat :=
  match l with
  | [] => none
  | _ => l.foldl (fun acc c =>
      match acc with
      | none => none
      | some n => if c.isDigit then some (n * 10 + (c.toNat - 48)) else none)
      (some 0)

/-- Python `int(...)` on a decimal string token (an optional sign followed
by digits), `none` when a `ValueError` would be raised. -/
def pyInt (s : String) : Option Int :=
  match s.toList with
  | '-' :: rest => (parseDigits rest).map (fun n => -(n : Int))
  | '+' :: rest => (parseDigits rest).map (fun n => (n : Int))
  | l => (parseDigits l).map (fun n => (n : Int))

/-- `MusicLibrary._play` (source lines 293-336).  `fromDict dataType blob`
models `ml_classes[data_type].from_dict(json.loads(blob))`; `playerState`
is the transport state captured by `state(sonos)` immediately before the
mutation.  On success, returns the ordered list of calls the playback
controller receives together with the confirmation string. -/
def mlPlay (fromDict : String → String → Item) (playerState : String)
    (dataType : String) (results : List Row) (action numberStr : String) :
    Except String (List PCall × String) :=
  if action ≠ "add" ∧ action ≠ "replace" then
    .error "Action must be \x27add\x27 or \x27replace\x27"
  else
    match pyInt numberStr with
    | none => .error "Play number must be parseable as integer"
    | some n =>
      let number : Int := n - 1
      if 0 ≤ number ∧ number < (results.length : Int) then
        match (results.getD number.toNat []).getLast? with
        | none => .error "list index out of range"
        | some blob =>
          let item := fromDict dataType blob
          let calls :=
            (if action = "replace" then [PCall.clearQueue] else [])
            ++ [PCall.appendToQueue item]
            ++ (if action = "replace" ∧ playerState = "PLAYING" then
                  [PCall.beginPlayback] else [])
          let out :=
            if action = "replace" then
              "Queue replaced with: \x27" ++ item.title ++ "\x27"
            else
              "Added to queue: \x27" ++ item.title ++ "\x27"
          .ok (calls, out)
      else
        .error (if results.length = 0 then "No results to play from"
          else if results.length = 1 then "Play number can only be 1"
          else "Play number has to be in the range from 1 to "
            ++ toString results.length)

example : pyInt "2" = some 2 := by decide
example : pyInt "x" = none := by decide
example : pyInt "-3" = some (-3) := by decide
example : countEq "a=b=c" = 2 := by decide
example : splitOnChar '=' "artist=x".toList = ["artist".toList, "x".toList] := by decide
example :
    mlPlay (fun _ b => ⟨b⟩) "PLAYING" "tracks" [["a", "b1"], ["c", "b2"], ["d", "b3"]]
      "replace" "2" =
    .ok ([PCall.clearQueue, PCall.appendToQueue ⟨"b2"⟩, PCall.beginPlayback],
      "Queue replaced with: \x27b2\x27") := by rfl
example :
    mlPlay (fun _ b => ⟨b⟩) "PAUSED" "tracks" [["a", "b1"]] "add" "2" =
    .error "Play number can only be 1" := by rfl

/-! ## Result rendering (`MusicLibrary._print_results`) -/

/-- Python `str.rjust` / `'{: >w}'` padding. -/
def rjust (w : Nat) (s : String) : String :=
  String.mk (List.replicate (w - s.length) ' ') ++ s

/-- `MusicLibrary._print_results`: one numbered display line per result,
using the per-type print pattern.  `dictOf blob` models
`json.loads(item[-1])`. -/
def printResults (dictOf : String → List (String × String)) (dataType : String)
    (results : List Row) : List String :=
  let indexLength := (toString results.length).length
  results.enum.map (fun p =>
    let d := dictOf (p.2.getLastD "")
    let look := fun (k : String) => ((d.find? (fun q => q.1 = k)).map Prod.snd).getD ""
    let number := "(" ++ rjust indexLength (toString (p.1 + 1)) ++ ") "
    number ++
      (if dataType = "tracks" then
        "\x27" ++ look "title" ++ "\x27 on \x27" ++ look "album" ++ "\x27 by \x27"
          ++ look "creator" ++ "\x27"
      else if dataType = "albums" then
        "\x27" ++ look "title" ++ "\x27 by \x27" ++ look "creator" ++ "\x27"
      else
        "\x27" ++ look "title" ++ "\x27"))

/-! ## Search-and-play dispatcher (`MusicLibrary._search_and_play`) -/

/-- The two successful outcomes of `_search_and_play`: display lines from
`_print_results`, or a queue mutation from `_play`. -/
inductive SPOut where
  | printed (lines : List String)
  | played (calls : List PCall) (confirmation : String)
deriving Repr

/-- `MusicLibrary._search_and_play` (source lines 223-256): require an
indexed store (exactly 4 tables in `sqlite_master`), require a search
term, search, then dispatch on the argument count (1 = display, 3 = play,
anything else = play-syntax error).  Returns the outcome, the cache after
the call, and the number of store search queries issued. -/
def searchAndPlay (dictOf : String → List (String × String))
    (fromDict : String → String → Item) (playerState : String)
    (tables : List String) (cache : Cache) (store : Store)
    (dataType : String) (args : List String) :
    Except String SPOut × Cache × Nat :=
  if tables.length ≠ 4 then
    (.error ("Your music library cannot be search until it has been indexed. "
      ++ "First run \x27ml_index\x27"), cache, 0)
  else if args.length < 1 then
    (.error ("Search term missing. See \x27help ml_" ++ dataType ++ "\x27 for details"),
      cache, 0)
  else
    match mlSearch cache store dataType (args.headD "") with
    | (Except.error e, c, q) => (.error e, c, q)
    | (Except.ok results, c, q) =>
      if args.length = 1 then
        (.ok (.printed (printResults dictOf dataType results)), c, q)
      else if args.length = 3 then
        match mlPlay fromDict playerState dataType results (args.getD 1 "") (args.getD 2 "") with
        | .error e => (.error e, c, q)
        | .ok (calls, conf) => (.ok (.played calls conf), c, q)
      else
        (.error ("Incorrect play syntax: See \x27help ml_" ++ dataType ++ "\x27 for details"),
          c, q)

/-! ## The indexer (`MusicLibrary.index`, `MusicLibrary._index_single_type`)

The remote device (`sonos.get_music_library_information`) is modelled by
the total-match count and the `number_returned` of each page request; the
observable behaviour of the indexer is the sequence of page requests it
issues, the progress strings it yields, and the table DDL it performs.
Row inserts do not change the set of tables and are not modelled. -/

/-- The remote catalog device: for each data type, the reported
`total_matches`, and the `number_returned` of the page requested at a given
start offset. -/
structure Device where
  total : String → Nat
  numReturned : String → Nat → Nat

/-- The progress line yielded after each page in
`MusicLibrary._index_single_type`:
`'{: >3}%  {: >w} out of {: >w}'.format(count * 100 / total, count, total)`
with `w = len(str(total))`. -/
def progressLine (total count : Nat) : String :=
  let width := (toString total).length
  rjust 3 (toString (count * 100 / total)) ++ "%  " ++ rjust width (toString count)
    ++ " out of " ++ rjust width (toString total)

/-- Outcome of the paging loop of `_index_single_type` for one data type:
the page requests `(start, max_items)` issued, the progress strings
yielded, the final running count, and whether the loop completed.  A
device that returns `number_returned = 0` while `count < total` makes the
Python `while` loop spin forever on the same offset; that case is marked
`completed = false` and truncated after its first iteration. -/
structure PageRun where
  reqs : List (Nat × Nat)
  yields : List String
  finalCount : Nat
  completed : Bool
deriving Repr

/-- The `while count < total` paging loop of
`MusicLibrary._index_single_type` (source lines 129-146), starting from a
given running count: request `(start=count, max_items=1000)`, add
`number_returned` to `count`, yield a progress line, repeat. -/
def pageLoop (dev : Device) (dataType : String) (total count : Nat) : PageRun :=
  if h : count < total then
    let n := dev.numReturned dataType count
    if hn : n = 0 then
      { reqs := [(count, 1000)], yields := [progressLine total count],
        finalCount := count, completed := false }
    else
      let rest := pageLoop dev dataType total (count + n)
      { reqs := (count, 1000) :: rest.reqs,
        yields := progressLine total (count + n) :: rest.yields,
        finalCount := rest.finalCount,
        completed := rest.completed }
  else
    { reqs := [], yields := [], finalCount := count, completed := true }
termination_by total - count
decreasing_by omega

/-- `MusicLibrary._index_single_type`: the probe request
`get_ml_inf(data_type, 0, 1)` (start 0, at most one item) reads
`total_matches`, then `'Adding: {}'` is yielded and the paging loop runs
from count 0. -/
def indexSingleType (dev : Device) (dataType : String) : PageRun :=
  let total := dev.total dataType
  let run := pageLoop dev dataType total 0
  { run with reqs := (0, 1) :: run.reqs,
             yields := ("Adding: " ++ dataType) :: run.yields }

/-- `DROP TABLE {t}` for each listed table in order, threading the set of
existing tables; stops at the first missing table (a sqlite error raised
mid-loop), returning the tables at that point and `false`. -/
def dropTables : List String → List String → List String × Bool
  | [], tables => (tables, true)
  | t :: ts, tables =>
    if t ∈ tables then dropTables ts (tables.erase t) else (tables, false)

/-- The `CREATE TABLE` statements in order, threading the set of existing
tables; stops at the first already-existing table (a sqlite error raised
mid-loop). -/
def createTables : List String → List String → List String × Bool
  | [], tables => (tables, true)
  | t :: ts, tables =>
    if t ∈ tables then (tables, false) else createTables ts (tables ++ [t])

/-- Per-type slice of the `MusicLibrary.index` trace: every string the
generator yields for one data type, paired with the table set (constant
during paging — inserts do not create or drop tables). -/
def typeTrace (dev : Device) (tables : List String) (dataType : String) :
    List (String × List String) :=
  (indexSingleType dev dataType).yields.map (fun m => (m, tables))

/-- The tail of the `MusicLibrary.index` trace from the `'Creating
tables'` yield onward: the yield is observed with the tables `t1` as left
by the drop step, then the four creates run; if one fails the exception
ends the generator (no further yields), otherwise the four per-type
indexing passes run with the table set fixed. -/
def indexCreatePhase (dev : Device) (t1 : List String) :
    List (String × List String) :=
  ("Creating tables", t1) ::
    (let c := createTables createOrder t1
     if c.2 then (dataTypes.map (typeTrace dev c.1)).flatten else [])

/-- The observable trace of `MusicLibrary.index` (source lines 79-110):
each yielded string paired with the set of tables existing at the moment
the generator hands control back to the caller.  `openMsgs` are the
strings `_open_db` yields (folder/database creation notices, which touch
no tables); code between two yields runs atomically from the caller's
point of view, and a db error between yields ends the trace (the
exception propagates, no further yields).  Row inserts during paging do
not change the table set. -/
def indexYieldStates (openMsgs : List String) (tables0 : List String)
    (dev : Device) : List (String × List String) :=
  openMsgs.map (fun m => (m, tables0)) ++
    (if tables0.length = 4 then
      ("Deleting tables", tables0) ::
        (let d := dropTables dataTypes tables0
         if d.2 then indexCreatePhase dev d.1 else [])
    else indexCreatePhase dev tables0)

/-- A caller-visible table state allowed by the full-index invariant:
either no tables (never indexed) or exactly the four item-type tables. -/
def goodTableState (tables : List String) : Prop :=
  tables = [] ∨
    (tables.Nodup ∧ (∀ t ∈ tables, t ∈ dataTypes) ∧ (∀ t ∈ dataTypes, t ∈ tables))

instance (tables : List String) : Decidable (goodTableState tables) := by
  unfold goodTableState
  infer_instance

/-- The offset sequence of the paging loop: `offFrom dev dt c 0 = c` and
each later offset advances by the `number_returned` of the page requested
at the previous offset.  Used to state what "the current running offset"
is. -/
def offFrom (dev : Device) (dataType : String) (start : Nat) : Nat → Nat
  | 0 => start
  | i + 1 =>
    offFrom dev dataType start i + dev.numReturned dataType (offFrom dev dataType start i)

/-! ## Cache lemmas -/

theorem cacheTrim_eq_drop (n : Nat) (c : Cache) :
    cacheTrim n c = c.drop (c.length - n) := by
  induction c with
  | nil => simp [cacheTrim]
  | cons p rest ih =>
    by_cases h : (p :: rest).length ≤ n
    · rw [cacheTrim, if_pos h]
      have h0 : (p :: rest).length - n = 0 := by omega
      rw [h0, List.drop_zero]
    · rw [cacheTrim, if_neg h, ih]
      have hlen : (p :: rest).length - n = (rest.length - n) + 1 := by
        simp only [List.length_cons] at h ⊢
        omega
      rw [hlen, List.drop_succ_cons]

theorem cacheUpdate_fresh (c : Cache) (k : Key) (v : List Row)
    (h : ∀ p ∈ c, p.1 ≠ k) : cacheUpdate c k v = c ++ [(k, v)] := by
  have hany : c.any (fun p => p.1 = k) = false := by
    simp only [List.any_eq_false, decide_eq_true_eq]
    exact h
  rw [cacheUpdate, hany]
  simp

theorem cacheGet_eq_none_iff (c : Cache) (k : Key) :
    cacheGet c k = none ↔ ∀ p ∈ c, p.1 ≠ k := by
  simp [cacheGet, List.find?_eq_none]

theorem find?_append_of_none {α : Type _} (p : α → Bool) (l₁ l₂ : List α)
    (h : l₁.find? p = none) : (l₁ ++ l₂).find? p = l₂.find? p := by
  induction l₁ with
  | nil => simp
  | cons a t ih =>
    cases hp : p a with
    | true => rw [List.find?_cons_of_pos _ hp] at h; exact absurd h (by simp)
    | false =>
      rw [List.find?_cons_of_neg _ (by simp [hp])] at h
      rw [List.cons_append, List.find?_cons_of_neg _ (by simp [hp])]
      exact ih h

theorem cacheGet_cachePut_self (c : Cache) (k : Key) (v : List Row)
    (h : cacheGet c k = none) : cacheGet (cachePut c k v) k = some v := by
  have hf : ∀ p ∈ c, p.1 ≠ k := (cacheGet_eq_none_iff c k).mp h
  rw [cachePut, cacheUpdate_fresh c k v hf, cacheTrim_eq_drop]
  rw [List.drop_append_eq_append_drop]
  have h2 : (c ++ [(k, v)]).length - cacheLength - c.length = 0 := by
    simp only [cacheLength, List.length_append, List.length_cons, List.length_nil]
    omega
  rw [h2, List.drop_zero]
  have hnone : ((c.drop ((c ++ [(k, v)]).length - cacheLength)).find?
      (fun p => p.1 = k)) = none := by
    rw [List.find?_eq_none]
    intro q hq
    simp only [decide_eq_true_eq]
    exact hf q (List.mem_of_mem_drop hq)
  rw [cacheGet, find?_append_of_none _ _ _ hnone]
  simp

theorem cacheGet_of_mem (c : Cache) (p : Key × List Row)
    (hnd : (c.map Prod.fst).Nodup) (hmem : p ∈ c) :
    cacheGet c p.1 = some p.2 := by
  induction c with
  | nil => cases hmem
  | cons q rest ih =>
    rcases List.mem_cons.mp hmem with rfl | hrest
    · rw [cacheGet, List.find?_cons_of_pos _ (by simp)]
      rfl
    · have hne : q.1 ≠ p.1 := by
        simp only [List.map_cons, List.nodup_cons] at hnd
        intro he
        exact hnd.1 (he ▸ List.mem_map_of_mem Prod.fst hrest)
      rw [cacheGet, List.find?_cons_of_neg _ (by simp [hne])]
      exact ih (by simp only [List.map_cons, List.nodup_cons] at hnd; exact hnd.2) hrest

/-! ## Sequences of cache operations

An `OrderedDict` read (`key in d`, `d[key]`) neither reorders nor resizes
the dictionary, so in a sequence of cache operations only the puts change
the state. -/

/-- A cache operation: an insertion as performed on a search miss, or a
read as performed on a search hit. -/
inductive CacheOp where
  | putOp (k : Key) (v : List Row)
  | getOp (k : Key)

/-- Effect of one operation on the cache state: a put assigns and trims; a
read leaves the `OrderedDict` unchanged. -/
def opStep (c : Cache) : CacheOp → Cache
  | .putOp k v => cachePut c k v
  | .getOp _ => c

/-- Run a sequence of cache operations from the empty cache of a fresh
`MusicLibrary`. -/
def runOps (ops : List CacheOp) : Cache :=
  ops.foldl opStep []

/-- The key/value pairs of the put operations of a sequence, in order. -/
def putsOf (ops : List CacheOp) : List (Key × List Row) :=
  ops.filterMap (fun op => match op with
    | .putOp k v => some (k, v)
    | .getOp _ => none)

/-- Folding the puts only. -/
def putAll (ps : List (Key × List Row)) (c : Cache) : Cache :=
  ps.foldl (fun acc p => cachePut acc p.1 p.2) c

theorem foldl_opStep_eq_putAll (ops : List CacheOp) :
    ∀ c : Cache, ops.foldl opStep c = putAll (putsOf ops) c := by
  induction ops with
  | nil => intro c; rfl
  | cons op rest ih =>
    intro c
    cases op with
    | putOp k v =>
      rw [List.foldl_cons, ih]
      rfl
    | getOp k =>
      rw [List.foldl_cons, ih]
      rfl

theorem putAll_fresh :
    ∀ (ps : List (Key × List Row)) (c : Cache),
      c.length ≤ cacheLength →
      ((c ++ ps).map Prod.fst).Nodup →
      putAll ps c = (c ++ ps).drop ((c ++ ps).length - cacheLength) := by
  intro ps
  induction ps with
  | nil =>
    intro c hc _
    have h0 : (c ++ []).length - cacheLength = 0 := by
      simp only [List.append_nil]
      omega
    rw [h0]
    simp [putAll]
  | cons p ps ih =>
    intro c hc hnd
    have hnd' : ((c ++ p :: ps).map Prod.fst).Nodup := hnd
    rw [List.map_append, List.map_cons, List.nodup_append] at hnd'
    have hfresh : ∀ q ∈ c, q.1 ≠ p.1 := by
      intro q hq he
      exact hnd'.2.2 (he ▸ List.mem_map_of_mem Prod.fst hq) (List.mem_cons_self _ _)
    have hput : cachePut c p.1 p.2 = (c ++ [p]).drop ((c ++ [p]).length - cacheLength) := by
      rw [cachePut, cacheUpdate_fresh c p.1 p.2 hfresh, cacheTrim_eq_drop]
    have hsub : (c ++ p :: ps).drop ((c ++ [p]).length - cacheLength)
        = ((c ++ [p]).drop ((c ++ [p]).length - cacheLength)) ++ ps := by
      have hz : (c ++ [p]).length - cacheLength - (c ++ [p]).length = 0 := by omega
      have harr : (c ++ [p]) ++ ps = c ++ p :: ps := by simp
      rw [← harr, List.drop_append_eq_append_drop, hz, List.drop_zero]
    have hc' : ((c ++ [p]).drop ((c ++ [p]).length - cacheLength)).length ≤ cacheLength := by
      rw [List.length_drop]
      omega
    have hndsub : ((((c ++ [p]).drop ((c ++ [p]).length - cacheLength)) ++ ps).map
        Prod.fst).Nodup := by
      rw [← hsub]
      refine List.Nodup.sublist (List.Sublist.map Prod.fst (List.drop_sublist _ _)) ?_
      exact hnd
    have hstep : putAll (p :: ps) c
        = putAll ps ((c ++ [p]).drop ((c ++ [p]).length - cacheLength)) := by
      rw [putAll, List.foldl_cons, ← hput]
      rfl
    rw [hstep, ih _ hc' hndsub, ← hsub, List.drop_drop]
    congr 1
    rw [List.length_drop]
    simp only [List.length_append, List.length_cons, List.length_nil]
    omega

/-- Claim C2: the query cache has fixed capacity 10 and evicts in strict
insertion (FIFO) order.  For any operation sequence whose puts are 11
inserts with pairwise-distinct keys (with reads interleaved anywhere),
starting from the empty cache the final state is exactly the 10
most-recently-inserted entries in insertion order; the first-inserted key
is evicted (no longer retrievable) while every one of the 10 younger keys
is still retrievable with its value.  Reads are state-neutral in the
model (`opStep` on `getOp` is the identity, as an `OrderedDict` read
neither reorders nor resizes), so re-reading an older key cannot protect
it from eviction before a younger key. -/
theorem c2_cache_fifo_eviction (ops : List CacheOp) (ps : List (Key × List Row))
    (hops : putsOf ops = ps) (hlen : ps.length = 11)
    (hnd : (ps.map Prod.fst).Nodup) :
    runOps ops = ps.tail ∧
    (∀ p ∈ ps.take 1, cacheGet (runOps ops) p.1 = none) ∧
    (∀ p ∈ ps.tail, cacheGet (runOps ops) p.1 = some p.2) := by
  have hrun : runOps ops = ps.drop 1 := by
    rw [runOps, foldl_opStep_eq_putAll, hops,
      putAll_fresh ps [] (by simp [cacheLength]) (by simpa using hnd)]
    simp only [List.nil_append]
    rw [hlen]
    rfl
  cases ps with
  | nil => simp at hlen
  | cons a rest =>
    simp only [List.drop_succ_cons, List.drop_zero] at hrun
    simp only [List.map_cons, List.nodup_cons] at hnd
    refine ⟨by simpa using hrun, ?_, ?_⟩
    · intro p hp
      simp only [List.take_succ_cons, List.take_zero, List.mem_singleton] at hp
      subst hp
      rw [hrun, cacheGet_eq_none_iff]
      intro q hq he
      exact hnd.1 (he ▸ List.mem_map_of_mem Prod.fst hq)
    · intro p hp
      simp only [List.tail_cons] at hp
      rw [hrun]
      exact cacheGet_of_mem rest p hnd.2 hp

/-- Concrete operation sequence for the C2 witness: 11 puts with distinct
keys, with reads of the two oldest keys interleaved. -/
def c2OpsW : List CacheOp :=
  [CacheOp.putOp ("tracks", "title", "%a0%") [["r0"]],
   CacheOp.putOp ("tracks", "title", "%a1%") [["r1"]],
   CacheOp.getOp ("tracks", "title", "%a0%"),
   CacheOp.putOp ("tracks", "title", "%a2%") [["r2"]],
   CacheOp.putOp ("tracks", "title", "%a3%") [["r3"]],
   CacheOp.getOp ("tracks", "title", "%a1%"),
   CacheOp.putOp ("tracks", "title", "%a4%") [["r4"]],
   CacheOp.putOp ("tracks", "title", "%a5%") [["r5"]],
   CacheOp.putOp ("tracks", "title", "%a6%") [["r6"]],
   CacheOp.putOp ("tracks", "title", "%a7%") [["r7"]],
   CacheOp.getOp ("tracks", "title", "%a0%"),
   CacheOp.putOp ("tracks", "title", "%a8%") [["r8"]],
   CacheOp.putOp ("tracks", "title", "%a9%") [["r9"]],
   CacheOp.putOp ("tracks", "title", "%a10%") [["r10"]]]

/-- The put pairs of `c2OpsW`, in order. -/
def c2PsW : List (Key × List Row) :=
  [(("tracks", "title", "%a0%"), [["r0"]]),
   (("tracks", "title", "%a1%"), [["r1"]]),
   (("tracks", "title", "%a2%"), [["r2"]]),
   (("tracks", "title", "%a3%"), [["r3"]]),
   (("tracks", "title", "%a4%"), [["r4"]]),
   (("tracks", "title", "%a5%"), [["r5"]]),
   (("tracks", "title", "%a6%"), [["r6"]]),
   (("tracks", "title", "%a7%"), [["r7"]]),
   (("tracks", "title", "%a8%"), [["r8"]]),
   (("tracks", "title", "%a9%"), [["r9"]]),
   (("tracks", "title", "%a10%"), [["r10"]])]

/-- Witness for C2 at a concrete 11-put operation sequence. -/
theorem c2_cache_fifo_eviction_witness :
    runOps c2OpsW = c2PsW.tail ∧
    (∀ p ∈ c2PsW.take 1, cacheGet (runOps c2OpsW) p.1 = none) ∧
    (∀ p ∈ c2PsW.tail, cacheGet (runOps c2OpsW) p.1 = some p.2) :=
  c2_cache_fifo_eviction c2OpsW c2PsW rfl rfl (by decide)

/-! ## Claim C7: repeated searches are served from the cache -/

theorem searchExec_repeat (cache : Cache) (store : Store)
    (dataType field text : String) (res : List Row) (c1 : Cache) (n1 : Nat)
    (h : searchExec cache store dataType field text = (.ok res, c1, n1)) :
    searchExec c1 store dataType field text = (.ok res, c1, 0) := by
  simp only [searchExec] at h ⊢
  split at h
  · next r hg =>
    simp only [Prod.mk.injEq, Except.ok.injEq] at h
    obtain ⟨hr, hc, hn⟩ := h
    subst hr
    subst hc
    rw [hg]
  · next hg =>
    split at h
    · simp only [Prod.mk.injEq, Except.ok.injEq] at h
      obtain ⟨hr, hc, hn⟩ := h
      subst hr
      subst hc
      have hput := cacheGet_cachePut_self cache (dataType, field, "%" ++ text ++ "%")
        (store dataType field ("%" ++ text ++ "%")) hg
      rw [hput]
    · simp at h

/-- Claim C7: with the store unchanged, performing the same search a
second time returns a result set identical to the first and issues no new
store query — the second call is served from the cache populated (or
already hit) by the first.  `c1` is the cache state after the first
search and is also unchanged by the second. -/
theorem c7_second_search_cached (cache : Cache) (store : Store)
    (dataType q : String) (res : List Row) (c1 : Cache) (n1 : Nat)
    (h : mlSearch cache store dataType q = (.ok res, c1, n1)) :
    mlSearch c1 store dataType q = (.ok res, c1, 0) := by
  simp only [mlSearch] at h ⊢
  by_cases h0 : countEq q = 0
  · rw [if_pos h0] at h ⊢
    exact searchExec_repeat _ _ _ _ _ _ _ _ h
  · by_cases h1 : countEq q = 1
    · rw [if_neg h0, if_pos h1] at h ⊢
      exact searchExec_repeat _ _ _ _ _ _ _ _ h
    · rw [if_neg h0, if_neg h1] at h ⊢
      simp at h

/-- Store used by concrete witnesses: every query returns one fixed row. -/
def storeW : Store := fun _ _ _ => [["x", "blob"]]

/-- Witness for C7: a concrete miss-then-hit pair of searches. -/
theorem c7_second_search_cached_witness :
    mlSearch (cachePut [] ("tracks", "title", "%ab%") [["x", "blob"]]) storeW "tracks" "ab" =
      (.ok [["x", "blob"]], cachePut [] ("tracks", "title", "%ab%") [["x", "blob"]], 0) :=
  c7_second_search_cached [] storeW "tracks" "ab" [["x", "blob"]]
    (cachePut [] ("tracks", "title", "%ab%") [["x", "blob"]]) 1 (by rfl)

/-! ## Claim C5: parsing of the raw query token -/

theorem splitOnChar_of_not_mem (sep : Char) (l : List Char) (h : sep ∉ l) :
    splitOnChar sep l = [l] := by
  induction l with
  | nil => rfl
  | cons c rest ih =>
    have hc : ¬ c = sep := fun he => h (he ▸ List.mem_cons_self c rest)
    have hrest : sep ∉ rest := fun hm => h (List.mem_cons_of_mem c hm)
    simp only [splitOnChar, if_neg hc, ih hrest]
    rfl

theorem splitOnChar_single (sep : Char) (f t : List Char)
    (hf : sep ∉ f) (ht : sep ∉ t) :
    splitOnChar sep (f ++ sep :: t) = [f, t] := by
  induction f with
  | nil =>
    simp [splitOnChar, splitOnChar_of_not_mem sep t ht]
  | cons c rest ih =>
    have hc : ¬ c = sep := fun he => hf (he ▸ List.mem_cons_self c rest)
    have hrest : sep ∉ rest := fun hm => hf (List.mem_cons_of_mem c hm)
    simp only [List.cons_append, splitOnChar, List.append_eq, if_neg hc, ih hrest]
    rfl

/-- Claim C5: parsing of a raw query token in `MusicLibrary._search`.
Zero `=` characters: the field is `title` and the whole token is the
search text.  Exactly one `=` (the token is `f=t` with `=` in neither
part): the token is split at the `=` into field `f` and search text `t`.
More than one `=`: the search fails with the equals-sign validation error,
the cache is unchanged and no store query is issued. -/
theorem c5_query_token_parsing (cache : Cache) (store : Store)
    (dataType q : String) :
    (countEq q = 0 →
      mlSearch cache store dataType q = searchExec cache store dataType "title" q) ∧
    (∀ f t : List Char, '=' ∉ f → '=' ∉ t → q.toList = f ++ '=' :: t →
      mlSearch cache store dataType q =
        searchExec cache store dataType (String.mk f) (String.mk t)) ∧
    (2 ≤ countEq q →
      mlSearch cache store dataType q =
        (.error "= signs are not allowed in the search string", cache, 0)) := by
  refine ⟨?_, ?_, ?_⟩
  · intro h0
    simp only [mlSearch]
    rw [if_pos h0]
  · intro f t hf ht hq
    have hfe : f.filter (fun c => c = '=') = [] := by
      rw [List.filter_eq_nil_iff]
      intro a ha
      simp only [decide_eq_true_eq]
      exact fun he => hf (he ▸ ha)
    have hte : t.filter (fun c => c = '=') = [] := by
      rw [List.filter_eq_nil_iff]
      intro a ha
      simp only [decide_eq_true_eq]
      exact fun he => ht (he ▸ ha)
    have h1 : countEq q = 1 := by
      rw [countEq, hq, List.filter_append, hfe, List.filter_cons_of_pos (by simp), hte]
      rfl
    simp only [mlSearch]
    rw [if_neg (by omega), if_pos h1, hq, splitOnChar_single '=' f t hf ht]
    rfl
  · intro h2
    simp only [mlSearch]
    rw [if_neg (by omega), if_neg (by omega)]

/-- Store used where the witness needs an observable difference between
fields. -/
def storeW2 : Store := fun _ field _ => [[field, "blobW"]]

/-- Witness for C5 at the three concrete tokens `"ab"`, `"artist=x"` and
`"a=b=c"`. -/
theorem c5_query_token_parsing_witness :
    mlSearch [] storeW2 "tracks" "ab" = searchExec [] storeW2 "tracks" "title" "ab" ∧
    mlSearch [] storeW2 "tracks" "artist=x" =
      searchExec [] storeW2 "tracks" (String.mk "artist".toList) (String.mk "x".toList) ∧
    mlSearch [] storeW2 "tracks" "a=b=c" =
      (.error "= signs are not allowed in the search string", [], 0) :=
  ⟨(c5_query_token_parsing [] storeW2 "tracks" "ab").1 (by decide),
   (c5_query_token_parsing [] storeW2 "tracks" "artist=x").2.1 "artist".toList
     "x".toList (by decide) (by decide) (by decide),
   (c5_query_token_parsing [] storeW2 "tracks" "a=b=c").2.2 (by decide)⟩

/-! ## Claim C1: the replace/add queue-mutation scenario -/

/-- Claim C1: a queue mutation on a 3-item result set with number token
`"2"`.  With action `"replace"` the playback controller receives exactly
one `clearQueue`, then exactly one `appendToQueue` with the deserialized
item #2, then `beginPlayback` iff the transport state captured before the
mutation was `PLAYING`, and the confirmation is
`Queue replaced with: '<title of item#2>'`.  With action `"add"` no
`clearQueue` (and no `beginPlayback`) occurs and the confirmation is
`Added to queue: '<title>'`. -/
theorem c1_queue_mutation_scenario (fromDict : String → String → Item)
    (st dataType : String) (r1 r2 r3 : Row) (b : String)
    (hb : r2.getLast? = some b) :
    mlPlay fromDict st dataType [r1, r2, r3] "replace" "2" =
      .ok ([PCall.clearQueue, PCall.appendToQueue (fromDict dataType b)] ++
        (if st = "PLAYING" then [PCall.beginPlayback] else []),
        "Queue replaced with: \x27" ++ (fromDict dataType b).title ++ "\x27") ∧
    mlPlay fromDict st dataType [r1, r2, r3] "add" "2" =
      .ok ([PCall.appendToQueue (fromDict dataType b)],
        "Added to queue: \x27" ++ (fromDict dataType b).title ++ "\x27") := by
  have hp : pyInt "2" = some 2 := by decide
  constructor
  · simp only [mlPlay, hp]
    norm_num [hb, List.getD]
  · simp only [mlPlay, hp]
    norm_num [hb, List.getD]
    have hne : ¬ ("add" : String) = "replace" := by decide
    refine ⟨?_, fun h => absurd h hne⟩
    rw [if_neg hne, if_neg (fun h => hne h.1)]
    simp

/-- Item deserializer used by concrete witnesses: the blob is the title. -/
def fromDictW : String → String → Item := fun _ b => ⟨b⟩

/-- Witness for C1 at a concrete 3-row result set in the `PLAYING` state. -/
theorem c1_queue_mutation_scenario_witness :
    mlPlay fromDictW "PLAYING" "tracks" [["t1", "b1"], ["t2", "b2"], ["t3", "b3"]]
      "replace" "2" =
      .ok ([PCall.clearQueue, PCall.appendToQueue (fromDictW "tracks" "b2")] ++
        (if ("PLAYING" : String) = "PLAYING" then [PCall.beginPlayback] else []),
        "Queue replaced with: \x27" ++ (fromDictW "tracks" "b2").title ++ "\x27") ∧
    mlPlay fromDictW "PLAYING" "tracks" [["t1", "b1"], ["t2", "b2"], ["t3", "b3"]]
      "add" "2" =
      .ok ([PCall.appendToQueue (fromDictW "tracks" "b2")],
        "Added to queue: \x27" ++ (fromDictW "tracks" "b2").title ++ "\x27") :=
  c1_queue_mutation_scenario fromDictW "PLAYING" "tracks"
    ["t1", "b1"] ["t2", "b2"] ["t3", "b3"] "b2" (by rfl)

/-! ## Claim C6: queue-mutation validation order and messages -/

/-- Claim C6: `_play` validation runs in order — action first, then
integer parsing of the number token, then the range check — and an
out-of-range 1-based number produces the message determined by the
result-set size (empty, exactly one, or a 1..N range), while the accepted
numbers are exactly those whose 0-based index `n - 1` lies in
`[0, len(results))` (success additionally needs nonempty rows so that the
content blob exists). -/
theorem c6_play_validation (fromDict : String → String → Item)
    (st dataType : String) (results : List Row) (action numberStr : String) :
    (action ≠ "add" ∧ action ≠ "replace" →
      mlPlay fromDict st dataType results action numberStr =
        .error "Action must be \x27add\x27 or \x27replace\x27") ∧
    ((action = "add" ∨ action = "replace") → pyInt numberStr = none →
      mlPlay fromDict st dataType results action numberStr =
        .error "Play number must be parseable as integer") ∧
    (∀ n : Int, (action = "add" ∨ action = "replace") →
      pyInt numberStr = some n →
      ¬(0 ≤ n - 1 ∧ n - 1 < (results.length : Int)) →
      ((results.length = 0 →
        mlPlay fromDict st dataType results action numberStr =
          .error "No results to play from") ∧
       (results.length = 1 →
        mlPlay fromDict st dataType results action numberStr =
          .error "Play number can only be 1") ∧
       (2 ≤ results.length →
        mlPlay fromDict st dataType results action numberStr =
          .error ("Play number has to be in the range from 1 to "
            ++ toString results.length)))) ∧
    (∀ n : Int, (action = "add" ∨ action = "replace") →
      pyInt numberStr = some n →
      (0 ≤ n - 1 ∧ n - 1 < (results.length : Int)) →
      (∀ r ∈ results, r ≠ []) →
      ∃ out, mlPlay fromDict st dataType results action numberStr = .ok out) := by
  refine ⟨?_, ?_, ?_, ?_⟩
  · intro hbad
    rw [mlPlay, if_pos hbad]
  · intro hact hnone
    have hgood : ¬(action ≠ "add" ∧ action ≠ "replace") := by tauto
    rw [mlPlay, if_neg hgood, hnone]
  · intro n hact hsome hrange
    have hgood : ¬(action ≠ "add" ∧ action ≠ "replace") := by tauto
    refine ⟨?_, ?_, ?_⟩
    · intro hlen
      rw [mlPlay, if_neg hgood, hsome]
      simp only [if_neg hrange]
      rw [if_pos hlen]
    · intro hlen
      rw [mlPlay, if_neg hgood, hsome]
      simp only [if_neg hrange]
      rw [if_neg (by omega), if_pos hlen]
    · intro hlen
      rw [mlPlay, if_neg hgood, hsome]
      simp only [if_neg hrange]
      rw [if_neg (by omega), if_neg (by omega)]
  · intro n hact hsome hrange hrows
    have hgood : ¬(action ≠ "add" ∧ action ≠ "replace") := by tauto
    rw [mlPlay, if_neg hgood, hsome]
    simp only [if_pos hrange]
    have hidx : (n - 1).toNat < results.length := by omega
    have hmem : results.getD (n - 1).toNat [] ∈ results := by
      rw [List.getD_eq_getElem _ _ hidx]
      exact List.getElem_mem hidx
    have hne : results.getD (n - 1).toNat [] ≠ [] := hrows _ hmem
    obtain ⟨blob, hblob⟩ := Option.isSome_iff_exists.mp
      (List.getLast?_isSome.mpr hne)
    rw [hblob]
    exact ⟨_, rfl⟩

/-- Witness for C6 at concrete inputs covering all six branches. -/
theorem c6_play_validation_witness :
    mlPlay fromDictW "STOPPED" "tracks" [] "bogus" "1" =
      .error "Action must be \x27add\x27 or \x27replace\x27" ∧
    mlPlay fromDictW "STOPPED" "tracks" [["t", "b"]] "add" "x" =
      .error "Play number must be parseable as integer" ∧
    mlPlay fromDictW "STOPPED" "tracks" [] "add" "1" =
      .error "No results to play from" ∧
    mlPlay fromDictW "STOPPED" "tracks" [["t", "b"]] "add" "2" =
      .error "Play number can only be 1" ∧
    mlPlay fromDictW "STOPPED" "tracks" [["a", "b1"], ["c", "b2"], ["d", "b3"]] "add" "5" =
      .error ("Play number has to be in the range from 1 to "
        ++ toString ([["a", "b1"], ["c", "b2"], ["d", "b3"]] : List Row).length) ∧
    ∃ out, mlPlay fromDictW "STOPPED" "tracks" [["t", "b"]] "add" "1" = .ok out :=
  ⟨(c6_play_validation fromDictW "STOPPED" "tracks" [] "bogus" "1").1
     (by refine ⟨?_, ?_⟩ <;> decide),
   (c6_play_validation fromDictW "STOPPED" "tracks" [["t", "b"]] "add" "x").2.1
     (Or.inl rfl) (by decide),
   ((c6_play_validation fromDictW "STOPPED" "tracks" [] "add" "1").2.2.1 1
     (Or.inl rfl) (by decide) (by norm_num)).1 rfl,
   ((c6_play_validation fromDictW "STOPPED" "tracks" [["t", "b"]] "add" "2").2.2.1 2
     (Or.inl rfl) (by decide) (by norm_num)).2.1 rfl,
   ((c6_play_validation fromDictW "STOPPED" "tracks"
       [["a", "b1"], ["c", "b2"], ["d", "b3"]] "add" "5").2.2.1 5
     (Or.inl rfl) (by decide) (by norm_num)).2.2 (by norm_num),
   (c6_play_validation fromDictW "STOPPED" "tracks" [["t", "b"]] "add" "1").2.2.2 1
     (Or.inl rfl) (by decide) (by norm_num) (by intro r hr; simp at hr; simp [hr])⟩

/-! ## Claim C10: two-token calls -/

/-- Empty store for counterexamples. -/
def store0 : Store := fun _ _ _ => []

/-- Empty content-blob parser for counterexamples. -/
def dictOf0 : String → List (String × String) := fun _ => []

/-- The four tables of an indexed store, in `sqlite_master` order. -/
def tables4 : List String := ["tracks", "albums", "artists", "playlists"]

/-- Counterexample to C10 as stated: on an indexed store, the two-token
call with query token `"a=b=c"` and action token `"add"` fails with the
equals-sign validation error raised by the search, not with the
incorrect-play-syntax error — so a two-token call does not always fail
with the incorrect-play-syntax message. -/
theorem c10_counterexample :
    searchAndPlay dictOf0 fromDictW "STOPPED" tables4 [] store0 "tracks"
      ["a=b=c", "add"] =
      (.error "= signs are not allowed in the search string", [], 0) ∧
    ("= signs are not allowed in the search string" : String) ≠
      "Incorrect play syntax: See \x27help ml_tracks\x27 for details" := by
  refine ⟨by rfl, by decide⟩

/-- Claim C10 (amended): on an indexed store, a call with exactly two
tokens after the item-type (query plus action, no number) always fails —
it never mutates the queue and never produces display output; and
whenever the search for the query token itself succeeds, the failure is
precisely the incorrect-play-syntax error (only one-token and three-token
argument lists are accepted). -/
theorem c10_two_token_always_fails (dictOf : String → List (String × String))
    (fromDict : String → String → Item) (st : String) (tables : List String)
    (cache : Cache) (store : Store) (dataType q a : String)
    (res : List Row) (c1 : Cache) (n1 : Nat)
    (htab : tables.length = 4)
    (hsearch : mlSearch cache store dataType q = (.ok res, c1, n1)) :
    searchAndPlay dictOf fromDict st tables cache store dataType [q, a] =
      (.error ("Incorrect play syntax: See \x27help ml_" ++ dataType
        ++ "\x27 for details"), c1, n1) ∧
    (∀ q' a' : String, ∀ out : SPOut, ∀ c' : Cache, ∀ n' : Nat,
      searchAndPlay dictOf fromDict st tables cache store dataType [q', a'] ≠
        (.ok out, c', n')) := by
  constructor
  · rw [searchAndPlay, if_neg (by omega)]
    have hargs : ¬ ([q, a].length < 1) := by simp
    rw [if_neg hargs]
    simp only [List.headD]
    rw [hsearch]
    simp
  · intro q' a' out c' n'
    rw [searchAndPlay, if_neg (by omega)]
    have hargs : ¬ ([q', a'].length < 1) := by simp
    rw [if_neg hargs]
    rcases hres : mlSearch cache store dataType ([q', a'].headD "") with ⟨e, cc, nn⟩
    cases e with
    | error msg => simp
    | ok rs => simp

/-- Witness for C10 (amended) at a concrete indexed store. -/
theorem c10_two_token_always_fails_witness :
    searchAndPlay dictOf0 fromDictW "STOPPED" tables4 [] storeW "tracks"
      ["ab", "add"] =
      (.error ("Incorrect play syntax: See \x27help ml_" ++ "tracks"
        ++ "\x27 for details"),
        cachePut [] ("tracks", "title", "%ab%") [["x", "blob"]], 1) ∧
    (∀ q' a' : String, ∀ out : SPOut, ∀ c' : Cache, ∀ n' : Nat,
      searchAndPlay dictOf0 fromDictW "STOPPED" tables4 [] storeW "tracks"
        [q', a'] ≠ (.ok out, c', n')) :=
  c10_two_token_always_fails dictOf0 fromDictW "STOPPED" tables4 [] storeW
    "tracks" "ab" "add" [["x", "blob"]]
    (cachePut [] ("tracks", "title", "%ab%") [["x", "blob"]]) 1 (by rfl) (by rfl)

/-! ## Claims C3 and C8: the table-set invariant of `index` -/

theorem dropTables_complete :
    ∀ (ds tables : List String), ds.Nodup → tables.Nodup →
      (∀ t, t ∈ tables ↔ t ∈ ds) → dropTables ds tables = ([], true) := by
  intro ds
  induction ds with
  | nil =>
    intro tables _ _ hiff
    have hnil : tables = [] :=
      List.eq_nil_iff_forall_not_mem.mpr (fun a ha => by simpa using (hiff a).mp ha)
    subst hnil
    rfl
  | cons d ds ih =>
    intro tables hds htab hiff
    have hd : d ∈ tables := (hiff d).mpr (List.mem_cons_self d ds)
    rw [dropTables, if_pos hd]
    have hds' := List.nodup_cons.mp hds
    apply ih (tables.erase d) hds'.2 (htab.erase d)
    intro t
    rw [List.Nodup.mem_erase_iff htab]
    constructor
    · rintro ⟨hne, htm⟩
      rcases List.mem_cons.mp ((hiff t).mp htm) with rfl | hmem
      · exact absurd rfl hne
      · exact hmem
    · intro hts
      refine ⟨?_, (hiff t).mpr (List.mem_cons_of_mem d hts)⟩
      intro he
      subst he
      exact hds'.1 hts

theorem goodTableState_length (tables : List String) (hnd : tables.Nodup)
    (hsub : ∀ t ∈ tables, t ∈ dataTypes) (hsup : ∀ t ∈ dataTypes, t ∈ tables) :
    tables.length = 4 := by
  have hperm : tables.Perm dataTypes :=
    (List.perm_ext_iff_of_nodup hnd (by decide)).mpr
      (fun a => ⟨fun h => hsub a h, fun h => hsup a h⟩)
  rw [hperm.length_eq]
  rfl

theorem typeTrace_snd (dev : Device) (tables : List String) (dataType : String)
    (p : String × List String) (hp : p ∈ typeTrace dev tables dataType) :
    p.2 = tables := by
  rw [typeTrace] at hp
  obtain ⟨m, _, rfl⟩ := List.mem_map.mp hp
  rfl

theorem indexCreatePhase_empty_good (dev : Device) :
    ∀ p ∈ indexCreatePhase dev [], goodTableState p.2 := by
  intro p hp
  have hct : createTables createOrder [] = (createOrder, true) := by rfl
  simp only [indexCreatePhase, hct] at hp
  rcases List.mem_cons.mp hp with rfl | hjoin
  · exact Or.inl rfl
  · rw [if_pos trivial, List.mem_flatten] at hjoin
    obtain ⟨l, hl, hpl⟩ := hjoin
    obtain ⟨dt, _, rfl⟩ := List.mem_map.mp hl
    rw [typeTrace_snd dev createOrder dt p hpl]
    exact Or.inr (by decide)

/-- Claim C3: the full-index invariant.  If the store starts in a good
state (no tables, or exactly the four item-type tables), then at every
point where the `index` generator hands control back to the caller —
including the last point reached by a run aborted partway through — the
set of existing tables is again either empty or exactly the four
item-type tables; no partial-index state is ever visible. -/
theorem c3_no_partial_index_state (openMsgs tables0 : List String)
    (dev : Device) (h0 : goodTableState tables0) :
    ∀ p ∈ indexYieldStates openMsgs tables0 dev, goodTableState p.2 := by
  intro p hp
  rw [indexYieldStates] at hp
  rcases List.mem_append.mp hp with hpre | hrest
  · obtain ⟨m, _, rfl⟩ := List.mem_map.mp hpre
    exact h0
  · rcases h0 with h0 | ⟨hnd, hsub, hsup⟩
    · subst h0
      rw [if_neg (by simp)] at hrest
      exact indexCreatePhase_empty_good dev p hrest
    · have hlen : tables0.length = 4 := goodTableState_length tables0 hnd hsub hsup
      rw [if_pos hlen] at hrest
      rcases List.mem_cons.mp hrest with rfl | htail
      · exact Or.inr ⟨hnd, hsub, hsup⟩
      · have hdrop : dropTables dataTypes tables0 = ([], true) :=
          dropTables_complete dataTypes tables0 (by decide) hnd
            (fun t => ⟨fun h => hsub t h, fun h => hsup t h⟩)
        simp only [hdrop] at htail
        exact indexCreatePhase_empty_good dev p htail

/-- Device with an empty catalog, used by index-trace witnesses. -/
def devW : Device := ⟨fun _ => 0, fun _ _ => 0⟩

/-- Witness for C3 starting from a concrete fully-indexed table set,
instantiated at the first observable point of the trace. -/
theorem c3_no_partial_index_state_witness :
    goodTableState (("opened", tables4) : String × List String).2 :=
  c3_no_partial_index_state ["opened"] tables4 devW (by decide)
    ("opened", tables4)
    (by rw [indexYieldStates]; exact List.mem_append_left _ (by simp))

/-- Claim C8: at the start of an index run the existing tables are
dropped iff exactly four tables exist.  With any other table count the
first yield is already the create step with the pre-existing tables
untouched; with exactly four (the four item-type tables of an indexed
store) the run first yields the delete step and then reaches the create
step with all four tables dropped. -/
theorem c8_drop_iff_exactly_four (tables0 : List String) (dev : Device) :
    (tables0.length ≠ 4 →
      (indexYieldStates [] tables0 dev).head? =
        some ("Creating tables", tables0)) ∧
    (tables0.length = 4 → tables0.Nodup → (∀ t ∈ tables0, t ∈ dataTypes) →
      (indexYieldStates [] tables0 dev).take 2 =
        [("Deleting tables", tables0), ("Creating tables", [])]) := by
  constructor
  · intro hne
    rw [indexYieldStates]
    simp only [List.map_nil, List.nil_append]
    rw [if_neg hne, indexCreatePhase]
    rfl
  · intro hlen hnd hsub
    have hsp : tables0.Subperm dataTypes := List.subperm_of_subset hnd hsub
    have hperm : tables0.Perm dataTypes :=
      hsp.perm_of_length_le (by rw [hlen]; rfl)
    have hsup : ∀ t ∈ dataTypes, t ∈ tables0 := fun t ht => hperm.mem_iff.mpr ht
    have hdrop : dropTables dataTypes tables0 = ([], true) :=
      dropTables_complete dataTypes tables0 (by decide) hnd
        (fun t => ⟨fun h => hsub t h, fun h => hsup t h⟩)
    rw [indexYieldStates]
    simp only [List.map_nil, List.nil_append]
    rw [if_pos hlen]
    simp only [hdrop]
    rw [indexCreatePhase]
    rfl

/-- Witness for C8 at a one-table store and at a four-table store. -/
theorem c8_drop_iff_exactly_four_witness :
    (indexYieldStates [] ["tracks"] devW).head? =
      some ("Creating tables", ["tracks"]) ∧
    (indexYieldStates [] tables4 devW).take 2 =
      [("Deleting tables", tables4), ("Creating tables", [])] :=
  ⟨(c8_drop_iff_exactly_four ["tracks"] devW).1 (by decide),
   (c8_drop_iff_exactly_four tables4 devW).2 (by decide) (by decide) (by decide)⟩

/-! ## Claims C4 and C9: the paging loop -/

theorem pageLoop_spec (dev : Device) (dataType : String) (total : Nat)
    (h : ∀ c, c < total → 1 ≤ dev.numReturned dataType c) :
    ∀ count, (pageLoop dev dataType total count).completed = true ∧
      total ≤ (pageLoop dev dataType total count).finalCount := by
  have main : ∀ k count, total - count ≤ k →
      (pageLoop dev dataType total count).completed = true ∧
      total ≤ (pageLoop dev dataType total count).finalCount := by
    intro k
    induction k with
    | zero =>
      intro count hc
      have hge : ¬ count < total := by omega
      rw [pageLoop, dif_neg hge]
      exact ⟨rfl, by show total ≤ count; omega⟩
    | succ k ih =>
      intro count hc
      by_cases hlt : count < total
      · have hn := h count hlt
        rw [pageLoop, dif_pos hlt, dif_neg (by omega : ¬ dev.numReturned dataType count = 0)]
        exact ih (count + dev.numReturned dataType count) (by omega)
      · rw [pageLoop, dif_neg hlt]
        exact ⟨rfl, by show total ≤ count; omega⟩
  intro count
  exact main (total - count) count le_rfl

theorem offFrom_shift (dev : Device) (dataType : String) (count : Nat) :
    ∀ i, offFrom dev dataType count (i + 1) =
      offFrom dev dataType (count + dev.numReturned dataType count) i := by
  intro i
  induction i with
  | zero => rfl
  | succ i ih =>
    show offFrom dev dataType count (i + 1) +
        dev.numReturned dataType (offFrom dev dataType count (i + 1)) = _
    rw [ih]
    rfl

theorem pageLoop_reqs (dev : Device) (dataType : String) (total : Nat)
    (h : ∀ c, c < total → 1 ≤ dev.numReturned dataType c) :
    ∀ count,
      (∀ i, i < (pageLoop dev dataType total count).reqs.length →
        (pageLoop dev dataType total count).reqs.getD i (0, 0) =
          (offFrom dev dataType count i, 1000) ∧
        offFrom dev dataType count i < total) ∧
      total ≤ offFrom dev dataType count
        (pageLoop dev dataType total count).reqs.length := by
  have main : ∀ k count, total - count ≤ k →
      (∀ i, i < (pageLoop dev dataType total count).reqs.length →
        (pageLoop dev dataType total count).reqs.getD i (0, 0) =
          (offFrom dev dataType count i, 1000) ∧
        offFrom dev dataType count i < total) ∧
      total ≤ offFrom dev dataType count
        (pageLoop dev dataType total count).reqs.length := by
    intro k
    induction k with
    | zero =>
      intro count hc
      have hge : ¬ count < total := by omega
      rw [pageLoop, dif_neg hge]
      exact ⟨fun i hi => absurd hi (by simp), by show total ≤ count; omega⟩
    | succ k ih =>
      intro count hc
      by_cases hlt : count < total
      · have hn := h count hlt
        rw [pageLoop, dif_pos hlt, dif_neg (by omega : ¬ dev.numReturned dataType count = 0)]
        have hrec := ih (count + dev.numReturned dataType count) (by omega)
        constructor
        · intro i hi
          cases i with
          | zero => exact ⟨rfl, hlt⟩
          | succ i =>
            rw [List.getD_cons_succ, offFrom_shift]
            exact hrec.1 i (by simpa using hi)
        · show total ≤ offFrom dev dataType count
            ((pageLoop dev dataType total (count + dev.numReturned dataType count)).reqs.length + 1)
          rw [offFrom_shift]
          exact hrec.2
      · rw [pageLoop, dif_neg hlt]
        exact ⟨fun i hi => absurd hi (by simp), by show total ≤ count; omega⟩
  intro count
  exact main (total - count) count le_rfl

/-- Device for the C4 counterexample witness: 2 total matches, pages of 2. -/
def devC4 : Device := ⟨fun _ => 2, fun _ _ => 2⟩

/-- Counterexample to C4 as stated: the probe request issued by
`_index_single_type` to obtain `total_matches` is
`get_ml_inf(data_type, 0, 1)` — start 0, `max_items` 1 — i.e. a request
for (up to) one item, not a zero-length request for zero items. -/
theorem c4_counterexample :
    (indexSingleType devC4 "tracks").reqs.headD (5, 5) = (0, 1) ∧
    ((0, 1) : Nat × Nat).2 ≠ 0 := by
  exact ⟨by simp [indexSingleType], by decide⟩

/-- Claim C4 (amended): for each item-type the indexer obtains
`total_matches` via a probe request for at most one item (start 0,
`max_items` 1), and then — whenever every page request returns at least
one item while the running count is short of the total — issues exactly
the page requests `(offset, 1000)` at the successive running offsets, each
while the offset is still below `total_matches`, finishing as soon as the
running count reaches `total_matches`. -/
theorem c4_probe_and_paging (dev : Device) (dataType : String)
    (h : ∀ c, c < dev.total dataType → 1 ≤ dev.numReturned dataType c) :
    (indexSingleType dev dataType).reqs.headD (0, 0) = (0, 1) ∧
    (∀ i, i + 1 < (indexSingleType dev dataType).reqs.length →
      (indexSingleType dev dataType).reqs.getD (i + 1) (0, 0) =
        (offFrom dev dataType 0 i, 1000) ∧
      offFrom dev dataType 0 i < dev.total dataType) ∧
    dev.total dataType ≤
      offFrom dev dataType 0 ((indexSingleType dev dataType).reqs.length - 1) ∧
    (indexSingleType dev dataType).completed = true := by
  have hr := pageLoop_reqs dev dataType (dev.total dataType) h 0
  have hs := pageLoop_spec dev dataType (dev.total dataType) h 0
  have hreqs : (indexSingleType dev dataType).reqs
      = (0, 1) :: (pageLoop dev dataType (dev.total dataType) 0).reqs := rfl
  have hcomp : (indexSingleType dev dataType).completed
      = (pageLoop dev dataType (dev.total dataType) 0).completed := rfl
  refine ⟨by rw [hreqs]; rfl, ?_, ?_, by rw [hcomp]; exact hs.1⟩
  · intro i hi
    rw [hreqs] at hi ⊢
    rw [List.getD_cons_succ]
    exact hr.1 i (by simpa using hi)
  · rw [hreqs]
    simp only [List.length_cons, Nat.add_sub_cancel]
    exact hr.2

/-- Witness for C4 (amended) at a device with 2 matches served in one
page of 2. -/
theorem c4_probe_and_paging_witness :
    (indexSingleType devC4 "tracks").reqs.headD (0, 0) = (0, 1) ∧
    (∀ i, i + 1 < (indexSingleType devC4 "tracks").reqs.length →
      (indexSingleType devC4 "tracks").reqs.getD (i + 1) (0, 0) =
        (offFrom devC4 "tracks" 0 i, 1000) ∧
      offFrom devC4 "tracks" 0 i < devC4.total "tracks") ∧
    devC4.total "tracks" ≤
      offFrom devC4 "tracks" 0 ((indexSingleType devC4 "tracks").reqs.length - 1) ∧
    (indexSingleType devC4 "tracks").completed = true :=
  c4_probe_and_paging devC4 "tracks" (fun c hc => by norm_num [devC4])

/-- Claim C9: under the precondition that every page request returns at
least one item whenever the running count is below `total_matches`, the
per-type paging loop of `_index_single_type` completes (the lazy progress
sequence is finite — `completed = true` marks that the model's truncation
of an infinite Python loop was not used) with the running count at least
`total_matches`, for each of the four item-types driven by `index`. -/
theorem c9_paging_terminates (dev : Device)
    (h : ∀ dt ∈ dataTypes, ∀ c, c < dev.total dt → 1 ≤ dev.numReturned dt c) :
    ∀ dt ∈ dataTypes,
      (pageLoop dev dt (dev.total dt) 0).completed = true ∧
      dev.total dt ≤ (pageLoop dev dt (dev.total dt) 0).finalCount ∧
      (indexSingleType dev dt).completed = true := by
  intro dt hdt
  have hs := pageLoop_spec dev dt (dev.total dt) (h dt hdt) 0
  exact ⟨hs.1, hs.2, hs.1⟩

/-- Witness for C9 at a device with an empty catalog, instantiated at the
`tracks` item-type. -/
theorem c9_paging_terminates_witness :
    (pageLoop devW "tracks" (devW.total "tracks") 0).completed = true ∧
    devW.total "tracks" ≤ (pageLoop devW "tracks" (devW.total "tracks") 0).finalCount ∧
    (indexSingleType devW "tracks").completed = true :=
  c9_paging_terminates devW (by intro dt _ c hc; simp [devW] at hc) "tracks" (by decide)
